import Mathlib

/-!
# SecPipe — verification of the persistence and pipeline layer

Shallow embedding of the SecPipe security-review pipeline
(`secpipe-agent.ts` durable-object persistence layer, `pipeline-workflow.ts`
orchestrator and the `stages/*` analysis-task adapters), together with
proofs of the specification's testable properties.

JavaScript conventions carried into the model:
* `x || d` on strings: `""`, `null` and `undefined` are falsy, so the
  default is taken exactly when the option is `none` or `some ""`.
* SQL tables are modelled as finite maps keyed by their TEXT primary key;
  `INSERT OR REPLACE` is an upsert on that key, and columns omitted from
  the insert column list take their schema defaults.
* SQLite `INTEGER`/`REAL` columns holding counts and percentages are
  modelled as `Nat` and `Rat`.
-/

/-- JS `x || d` for an optional string: the default is taken when the
value is absent (`undefined`/`null`) or the empty string (both falsy). -/
def jsOrStr (x : Option String) (d : String) : String :=
  match x with
  | none => d
  | some s => if s = "" then d else s

/-- JS `x || null` / `x || undefined` for an optional string: collapses
`some ""` to `none`. -/
def jsOrNone (x : Option String) : Option String :=
  match x with
  | none => none
  | some s => if s = "" then none else some s

/-- A node of a reachability data-flow path (element of the
`data_flow_path` JSON column). -/
structure PathNode where
  name : String
  nodeType : String
  description : String
deriving DecidableEq, Repr

/-- Source-code location of a finding (`finding.location` in the agent's
insert loop). -/
structure CodeLocation where
  startLine : Int
  endLine : Int
  snippet : String
deriving DecidableEq, Repr

/-- The reachability annotation attached to a finding
(`finding.reachabilityAnalysis` as read by the `/store-findings`
handler). -/
structure ReachabilityAnalysis where
  hasUserInputPath : Bool
  dataFlowPath : List PathNode
  sanitizersInPath : List String
  falsePositiveReason : Option String
deriving DecidableEq, Repr

/-- A filtered finding as produced by the reachability filter and consumed
by `/store-findings` (field set taken from the agent's insert loop and
`mapFindingFromDb`). -/
structure Finding where
  id : String
  category : String
  severity : String
  title : String
  description : String
  location : CodeLocation
  cweId : Option String
  owaspCategory : Option String
  isReachable : Bool
  reachabilityAnalysis : ReachabilityAnalysis
deriving DecidableEq, Repr

/-- A raw (pre-filter) finding as returned by one analysis-task adapter
after its id/category post-processing. -/
structure RawFinding where
  id : String
  category : String
  severity : String
  title : String
  description : String
deriving DecidableEq, Repr

/-- A remediation record as consumed by `/store-remediations`
(`rem.id`, `rem.findingId`, `rem.originalCode`, `rem.fixedCode`,
`rem.explanation`, `rem.diffHunks`, `rem.createdAt`). -/
structure Remediation where
  id : String
  findingId : String
  originalCode : String
  fixedCode : String
  explanation : String
  diffHunks : List String
  createdAt : Int
deriving DecidableEq, Repr

/-- The synthesis stage's result as consumed by `/store-findings`
(`synthesis.totalRaw`, `synthesis.noiseReductionPercent`). -/
structure SynthesisResult where
  totalRaw : Nat
  totalFiltered : Nat
  noiseReductionPercent : Rat
  summary : String
deriving DecidableEq, Repr

/-- One row of the `reviews` table (schema from `initializeDatabase`). -/
structure ReviewRow where
  id : String
  user_id : String
  code : String
  language : String
  status : String
  created_at : Int
  updated_at : Int
  workflow_instance_id : Option String
  total_findings_raw : Nat
  total_findings_filtered : Nat
  noise_reduction_percent : Rat
  current_stage : Option String
  error : Option String
deriving DecidableEq, Repr

/-- One row of the `findings` table (schema from `initializeDatabase`).
The JSON text columns `data_flow_path` and `sanitizers_in_path` are
modelled by the values they serialize. -/
structure FindingRow where
  id : String
  review_id : String
  category : String
  severity : String
  title : String
  description : String
  location_start_line : Int
  location_end_line : Int
  location_snippet : String
  cwe_id : Option String
  owasp_category : Option String
  is_reachable : Nat
  has_user_input_path : Nat
  data_flow_path : List PathNode
  sanitizers_in_path : List String
  false_positive_reason : Option String
  approved : Nat
  approved_at : Option Int
deriving DecidableEq, Repr

/-- One row of the `remediations` table (schema from
`initializeDatabase`). -/
structure RemediationRow where
  id : String
  finding_id : String
  review_id : String
  original_code : String
  fixed_code : String
  explanation : String
  diff_hunks : List String
  created_at : Int
deriving DecidableEq, Repr

/-- A SQL table keyed by its TEXT primary key. -/
def Table (α : Type) := String → Option α

/-- `INSERT OR REPLACE` on a primary key. -/
def upsertT {α : Type} (k : String) (v : α) (m : Table α) : Table α :=
  fun k' => if k' = k then some v else m k'

/-- The durable object's SQLite storage: the three tables created by
`initializeDatabase`. -/
structure AgentState where
  reviews : Table ReviewRow
  findings : Table FindingRow
  remediations : Table RemediationRow

/-- The row inserted for one finding by the `/store-findings` insert loop
(`INSERT OR REPLACE INTO findings (...)`); `approved`/`approved_at` are
not in the column list so they take the schema defaults `0`/`NULL`. -/
def findingToRow (reviewId : String) (f : Finding) : FindingRow :=
  { id := f.id
    review_id := reviewId
    category := f.category
    severity := f.severity
    title := f.title
    description := f.description
    location_start_line := f.location.startLine
    location_end_line := f.location.endLine
    location_snippet := f.location.snippet
    cwe_id := jsOrNone f.cweId
    owasp_category := jsOrNone f.owaspCategory
    is_reachable := if f.isReachable then 1 else 0
    has_user_input_path := if f.reachabilityAnalysis.hasUserInputPath then 1 else 0
    data_flow_path := f.reachabilityAnalysis.dataFlowPath
    sanitizers_in_path := f.reachabilityAnalysis.sanitizersInPath
    false_positive_reason := jsOrNone f.reachabilityAnalysis.falsePositiveReason
    approved := 0
    approved_at := none }

/-- Upsert a list of rows in order (the `for (const finding of findings)`
loop of `/store-findings`). -/
def storeRows (rows : List FindingRow) (m : Table FindingRow) : Table FindingRow :=
  rows.foldl (fun acc r => upsertT r.id r acc) m

/-- The `/update-status` handler: `UPDATE reviews SET status = ?,
current_stage = ?, updated_at = ? WHERE id = ?` with
`currentStage || null`. -/
def updateStatusOp (reviewId status : String) (currentStage : Option String)
    (now : Int) (s : AgentState) : AgentState :=
  { s with
    reviews := fun k =>
      if k = reviewId then
        (s.reviews k).map (fun r =>
          { r with status := status, current_stage := jsOrNone currentStage,
                   updated_at := now })
      else s.reviews k }

/-- The `/store-findings` handler: upserts each finding's row, then
`UPDATE reviews SET total_findings_raw = ?, total_findings_filtered = ?,
noise_reduction_percent = ?, updated_at = ? WHERE id = ?` with
`synthesis.totalRaw`, the recomputed
`findings.filter((f) => f.isReachable).length` and
`synthesis.noiseReductionPercent`. -/
def storeFindingsOp (now : Int) (reviewId : String) (findings : List Finding)
    (synthesis : SynthesisResult) (s : AgentState) : AgentState :=
  let reachableCount := (findings.filter (fun f => f.isReachable)).length
  { s with
    findings := storeRows (findings.map (findingToRow reviewId)) s.findings
    reviews := fun k =>
      if k = reviewId then
        (s.reviews k).map (fun r =>
          { r with total_findings_raw := synthesis.totalRaw,
                   total_findings_filtered := reachableCount,
                   noise_reduction_percent := synthesis.noiseReductionPercent,
                   updated_at := now })
      else s.reviews k }

/-- The row inserted for one remediation by `/store-remediations`. -/
def remediationToRow (reviewId : String) (rem : Remediation) : RemediationRow :=
  { id := rem.id
    finding_id := rem.findingId
    review_id := reviewId
    original_code := rem.originalCode
    fixed_code := rem.fixedCode
    explanation := rem.explanation
    diff_hunks := rem.diffHunks
    created_at := rem.createdAt }

/-- The `/store-remediations` handler: `INSERT OR REPLACE` of each
remediation row. -/
def storeRemediationsOp (reviewId : String) (rems : List Remediation)
    (s : AgentState) : AgentState :=
  { s with
    remediations :=
      rems.foldl (fun acc rem =>
        upsertT rem.id (remediationToRow reviewId rem) acc) s.remediations }

/-- `mapFindingFromDb`: converts a `findings` row back to a `Finding`
(`f.cwe_id || undefined`, `f.is_reachable === 1`,
`JSON.parse(f.data_flow_path || "[]")`,
`f.false_positive_reason || undefined`). -/
def mapFindingFromDb (row : FindingRow) : Finding :=
  { id := row.id
    category := row.category
    severity := row.severity
    title := row.title
    description := row.description
    location :=
      { startLine := row.location_start_line
        endLine := row.location_end_line
        snippet := row.location_snippet }
    cweId := jsOrNone row.cwe_id
    owaspCategory := jsOrNone row.owasp_category
    isReachable := row.is_reachable = 1
    reachabilityAnalysis :=
      { hasUserInputPath := row.has_user_input_path = 1
        dataFlowPath := row.data_flow_path
        sanitizersInPath := row.sanitizers_in_path
        falsePositiveReason := jsOrNone row.false_positive_reason } }

/-- Severity rank of the `ORDER BY CASE severity ... END` clause of the
`get_findings` tool: critical 1, high 2, medium 3, low 4, anything else
5. -/
def severityRank (s : String) : Nat :=
  if s = "critical" then 1
  else if s = "high" then 2
  else if s = "medium" then 3
  else if s = "low" then 4
  else 5

/-- The `get_findings` tool over the rows of the `findings` table:
`WHERE review_id = ?` plus `AND is_reachable = 1` unless
`includeFiltered` (zod-defaulted to `false` when omitted), ordered by
severity rank, each row converted by `mapFindingFromDb`. The `rows`
argument is the table's row list (an unqualified `SELECT` enumerates it
in an unspecified base order; `ORDER BY` leaves ties unspecified, which
a stable sort over an arbitrary enumeration refines). -/
def get_findings (rows : List FindingRow) (reviewId : String)
    (includeFiltered : Option Bool) : List Finding :=
  let incl := includeFiltered.getD false
  let selected := rows.filter (fun r =>
    r.review_id = reviewId && (incl || r.is_reachable = 1))
  let sorted := selected.mergeSort (fun a b =>
    severityRank a.severity ≤ severityRank b.severity)
  sorted.map mapFindingFromDb

/-- One element of the JSON array returned by the model to an analysis
task, before the adapter's post-processing: `id` and `category` may be
absent (or empty, which JS treats the same under `||`). -/
structure RawFindingJson where
  id : Option String
  category : Option String
  severity : String
  title : String
  description : String
deriving DecidableEq, Repr

/-- The model's JSON reply after `parseJsonResponse` has succeeded: either
an array of candidate findings or some other JSON value (object, string,
number, ...). -/
inductive ParsedJson where
  | arr (findings : List RawFindingJson)
  | nonArray
deriving DecidableEq, Repr

/-- The outcome of `parseJsonResponse(response)` on an inference reply:
`failure` when it throws (`Failed to parse AI response as JSON`), or the
parsed value. Fence-stripping and `JSON.parse` itself are platform
builtins, so the adapters are embedded over this outcome. -/
inductive ParseOutcome where
  | failure (msg : String)
  | value (v : ParsedJson)
deriving DecidableEq, Repr

/-- `generateId(prefix)` from `stages/utils.ts`:
`prefix ? prefix-timestamp-random : timestamp-random`, with the base-36
timestamp and random segments passed in explicitly (they come from
`Date.now()` and `Math.random()`). -/
def generateId (pfx ts rand : String) : String :=
  if pfx = "" then ts ++ "-" ++ rand else pfx ++ "-" ++ ts ++ "-" ++ rand

/-- A risk area reported by triage (`area.category` is all the injection
adapter inspects). -/
structure RiskArea where
  category : String
deriving DecidableEq, Repr

/-- The triage data-flow map (`dataFlowMap.sinks` is all the injection
adapter inspects). -/
structure DataFlowMap where
  sources : List String
  sinks : List String
deriving DecidableEq, Repr

/-- The triage stage's result, with the fields the later stages read
(`language`/`framework`/`codeType` feed the dependency prompt;
`dataFlowMap`, `entryPoints` and `riskAreas` feed the injection adapter
and the reachability filter). -/
structure TriageResult where
  language : String
  framework : String
  codeType : String
  dataFlowMap : DataFlowMap
  entryPoints : List String
  riskAreas : List RiskArea
deriving DecidableEq, Repr

/-- The per-finding post-processing shared by the analysis-task adapters:
`findings.map((finding, index) => ({ ...finding, id: finding.id ||
generateId(tag-index), category: ... }))`. `forceCat = true` models a
hard-coded category (dependency, secrets, auth); `forceCat = false`
models `finding.category || cat` (injection). -/
def stageFix (idTag cat : String) (forceCat : Bool) (ts rand : String)
    (xs : List RawFindingJson) : List RawFinding :=
  xs.enum.map (fun p =>
    { id := jsOrStr p.2.id (generateId (idTag ++ "-" ++ Nat.repr p.1) ts rand)
      category := if forceCat then cat else jsOrStr p.2.category cat
      severity := p.2.severity
      title := p.2.title
      description := p.2.description })

/-- `runDependencyStage` over the parse outcome of its one inference call:
`stages/dependency.ts` has no try/catch and no array check, so a parse
failure propagates out of the stage and `.map` on a non-array throws a
`TypeError`; on an array every finding gets
`id: finding.id || generateId(dep-index)` and a hard-coded
`category: "dependency"`. The `triage` argument only feeds the prompt. -/
def runDependencyStage (triage : TriageResult) (parsed : ParseOutcome)
    (ts rand : String) : Except String (List RawFinding) :=
  match parsed with
  | .failure msg => .error msg
  | .value .nonArray => .error "TypeError: findings.map is not a function"
  | .value (.arr xs) => .ok (stageFix "dep" "dependency" true ts rand xs)

/-- The short-circuit test of `stages/injection.ts`: skip the inference
call when triage reports no injection-family risk areas, no sinks and no
entry points. -/
def injectionSkips (triage : TriageResult) : Bool :=
  let hasInjectionRiskAreas := triage.riskAreas.any (fun area =>
    ["injection", "xss", "ssrf", "path_traversal"].contains area.category)
  let hasSinks : Bool := 0 < triage.dataFlowMap.sinks.length
  !hasInjectionRiskAreas && !hasSinks && triage.entryPoints.length == 0

/-- `runInjectionStage` over the parse outcome: the whole parse-and-map is
wrapped in try/catch returning `[]`, a non-array parse returns `[]`, and
on an array every finding gets `id: finding.id || generateId(inj-index)`
and `category: finding.category || "injection"` (the response's category
is kept when it is non-empty). -/
def runInjectionStage (triage : TriageResult) (parsed : ParseOutcome)
    (ts rand : String) : Except String (List RawFinding) :=
  if injectionSkips triage then .ok []
  else
    match parsed with
    | .failure _ => .ok []
    | .value .nonArray => .ok []
    | .value (.arr xs) => .ok (stageFix "inj" "injection" false ts rand xs)

/-- `runSecretsStage` over the parse outcome: try/catch returning `[]`,
non-array returns `[]`, and on an array every finding gets
`id: finding.id || generateId(sec-index)` and a hard-coded
`category: "secrets"`. -/
def runSecretsStage (parsed : ParseOutcome) (ts rand : String) :
    Except String (List RawFinding) :=
  match parsed with
  | .failure _ => .ok []
  | .value .nonArray => .ok []
  | .value (.arr xs) => .ok (stageFix "sec" "secrets" true ts rand xs)

/-- Modelled from the spec: `runAuthStage` (`stages/auth.ts` is not in the
source snapshot; only its caller `pipeline-workflow.ts` is). §4.1: "(e) on
parse failure, logs and returns an empty result rather than propagating",
every returned finding is assigned a task-scoped unique id if the source
response omitted one, and its category is force-set to the task's
category. -/
def runAuthStage (parsed : ParseOutcome) (ts rand : String) :
    Except String (List RawFinding) :=
  match parsed with
  | .failure _ => .ok []
  | .value .nonArray => .ok []
  | .value (.arr xs) => .ok (stageFix "auth" "auth" true ts rand xs)

/-- Modelled from the spec: `runSynthesisStage` (`stages/synthesis.ts` is
not in the source snapshot; only its caller `pipeline-workflow.ts` is).
§4.4: "Computes: reachable count, noise-reduction percentage =
(raw − reachable) / raw × 100 (defined as 0 when raw = 0), and a short
natural-language summary"; the numeric fields are deterministic
arithmetic over its inputs. -/
def runSynthesisStage (totalRaw : Nat) (filtered : List Finding) : SynthesisResult :=
  let reachable := (filtered.filter (fun f => f.isReachable)).length
  { totalRaw := totalRaw
    totalFiltered := reachable
    noiseReductionPercent :=
      if totalRaw = 0 then 0
      else ((totalRaw : Rat) - (reachable : Rat)) / (totalRaw : Rat) * 100
    summary := "" }

/-- Modelled from the spec: `runRemediationStage` (`stages/remediation.ts`
is not in the source snapshot; only its caller `pipeline-workflow.ts` is).
§3: one Remediation per finding passed to it — "Created only for findings
present in the approval decision" — each carrying its owning finding id. -/
def runRemediationStage (code : String) (approvedFindings : List Finding)
    (reviewId : String) (now : Int) : List Remediation :=
  approvedFindings.map (fun f =>
    { id := "rem-" ++ reviewId ++ "-" ++ f.id
      findingId := f.id
      originalCode := f.location.snippet
      fixedCode := code
      explanation := ""
      diffHunks := []
      createdAt := now })

/-- The approval event payload (`ApprovalEvent` of
`pipeline-workflow.ts`). -/
structure ApprovalEvent where
  approved : Bool
  findingIds : List String
deriving DecidableEq, Repr

/-- The checkpointed steps of `SecurityPipelineWorkflow.run` that invoke
an analysis task, in source order. -/
inductive StageName where
  | triage
  | dependency
  | auth
  | injection
  | secrets
  | reachability
  | synthesis
  | remediation
deriving DecidableEq, Repr

/-- The value returned by `SecurityPipelineWorkflow.run` on normal
completion. -/
structure PipelineOutput where
  status : String
  remediations : List Remediation
deriving DecidableEq, Repr

/-- The settled behavior of the pipeline's external collaborators for one
run. Each `Except` is the outcome of the corresponding `step.do` after
its retry policy: `.ok` means the step eventually produced a result,
`.error` means its retries were exhausted (or it timed out) and the step
failure propagated. `approvalEv` is what settles the `waitForEvent`
suspension point; `none` models expiry of the 7-day window with no event.
The status/persistence callbacks to the durable object are modelled as
applied directly to the durable state. -/
structure PipelineEnv where
  triageR : Except String TriageResult
  dependencyR : Except String (List RawFinding)
  authR : Except String (List RawFinding)
  injectionR : Except String (List RawFinding)
  secretsR : Except String (List RawFinding)
  reachabilityR : DataFlowMap → List RawFinding → Except String (List Finding)
  synthesisR : Nat → List Finding → Except String SynthesisResult
  approvalEv : Option ApprovalEvent
  remediationR : List Finding → Except String (List Remediation)
  now : Int

/-- One pipeline run's observable result: which analysis steps were
started, the final durable state, and `run`'s return value (`.error`
when a step failure propagated out of `run`). -/
structure RunResult where
  invoked : List StageName
  state : AgentState
  outcome : Except String PipelineOutput

/-- Modelled from the spec: the payload the orchestrator resumes with at
the approval suspension point. The timeout semantics of the platform's
`step.waitForEvent` are not repository code; per §4.5/§7(e) — "absence of
an event within the wait window is treated identically to explicit
rejection" — and the §9 strategy, expiry resumes with a synthetic
no-decision payload. -/
def approvalPayload (ev : Option ApprovalEvent) : ApprovalEvent :=
  match ev with
  | some p => p
  | none => { approved := false, findingIds := [] }

/-- The control flow of `SecurityPipelineWorkflow.run`: triage, a
`Promise.all` fan-out of the four analysis steps (all four are started;
execution passes the join only when every one of them resolved, and a
single rejection rejects the join), the reachability filter, synthesis,
`storeFindings`, the approval suspension point, and the conditional
remediation branch, with the status updates the source interleaves. -/
def runPipeline (env : PipelineEnv) (reviewId : String) (s0 : AgentState) : RunResult :=
  match env.triageR with
  | .error e => { invoked := [.triage], state := s0, outcome := .error e }
  | .ok triage =>
    let s1 := updateStatusOp reviewId "analyzing" (some "dependency") env.now s0
    let fanout : List StageName := [.triage, .dependency, .auth, .injection, .secrets]
    match env.dependencyR, env.authR, env.injectionR, env.secretsR with
    | .error e, _, _, _ => { invoked := fanout, state := s1, outcome := .error e }
    | _, .error e, _, _ => { invoked := fanout, state := s1, outcome := .error e }
    | _, _, .error e, _ => { invoked := fanout, state := s1, outcome := .error e }
    | _, _, _, .error e => { invoked := fanout, state := s1, outcome := .error e }
    | .ok dependencyFindings, .ok authFindings, .ok injectionFindings, .ok secretsFindings =>
      let allRawFindings :=
        dependencyFindings ++ authFindings ++ injectionFindings ++ secretsFindings
      let s2 := updateStatusOp reviewId "filtering" (some "reachability") env.now s1
      match env.reachabilityR triage.dataFlowMap allRawFindings with
      | .error e =>
        { invoked := fanout ++ [.reachability], state := s2, outcome := .error e }
      | .ok filteredFindings =>
        match env.synthesisR allRawFindings.length filteredFindings with
        | .error e =>
          { invoked := fanout ++ [.reachability, .synthesis], state := s2,
            outcome := .error e }
        | .ok synthesis =>
          let s3 := storeFindingsOp env.now reviewId filteredFindings synthesis s2
          let s4 := updateStatusOp reviewId "awaiting_approval" (some "approval") env.now s3
          let approval := approvalPayload env.approvalEv
          if !approval.approved || approval.findingIds.length == 0 then
            let s5 := updateStatusOp reviewId "completed" none env.now s4
            { invoked := fanout ++ [.reachability, .synthesis], state := s5,
              outcome := .ok { status := "completed", remediations := [] } }
          else
            let s5 := updateStatusOp reviewId "remediating" (some "remediation") env.now s4
            let approvedFindings := filteredFindings.filter (fun f =>
              f.isReachable && approval.findingIds.contains f.id)
            match env.remediationR approvedFindings with
            | .error e =>
              { invoked := fanout ++ [.reachability, .synthesis, .remediation],
                state := s5, outcome := .error e }
            | .ok remediations =>
              let s6 := storeRemediationsOp reviewId remediations s5
              let s7 := updateStatusOp reviewId "completed" none env.now s6
              { invoked := fanout ++ [.reachability, .synthesis, .remediation],
                state := s7,
                outcome := .ok { status := "completed", remediations := remediations } }

/-- A string field of a parsed finding counts as omitted when it is
JS-falsy: absent or the empty string. -/
def strFalsy (o : Option String) : Prop := o = none ∨ o = some ""

instance (o : Option String) : Decidable (strFalsy o) := by
  unfold strFalsy; infer_instance

/-- "Non-empty" for a nullable string column/field: present and not
`""`. -/
def nonEmptyOptStr : Option String → Prop
  | none => False
  | some s => s ≠ ""

instance (o : Option String) : Decidable (nonEmptyOptStr o) := by
  unfold nonEmptyOptStr
  match o with
  | none => exact inferInstanceAs (Decidable False)
  | some s => exact inferInstanceAs (Decidable (s ≠ ""))

/-- The Finding invariant of the spec: `isReachable == false` iff
`falsePositiveReason` is non-empty, and `isReachable == true` iff
`dataFlowPath` is non-empty. -/
def findingInvariant (f : Finding) : Prop :=
  ((f.isReachable = false) ↔ nonEmptyOptStr f.reachabilityAnalysis.falsePositiveReason)
  ∧ ((f.isReachable = true) ↔ f.reachabilityAnalysis.dataFlowPath ≠ [])

instance (f : Finding) : Decidable (findingInvariant f) := by
  unfold findingInvariant; infer_instance

/-- The decimal digit list of a natural number, most significant first
(the reference model for `Nat.repr`). -/
def reprList (n : Nat) : List Char :=
  if h : n < 10 then [Nat.digitChar n]
  else reprList (n / 10) ++ [Nat.digitChar (n % 10)]
decreasing_by exact Nat.div_lt_self (by omega) (by omega)

/-- The numeric value of a decimal digit character. -/
def digitVal (c : Char) : Nat := c.toNat - 48

/-- Reads a digit list back as a number (used to invert `reprList`). -/
def valOfDigits (l : List Char) : Nat :=
  l.foldl (fun acc c => 10 * acc + digitVal c) 0

/-- A triage result that reports nothing at all (no risk areas, no sinks,
no entry points). -/
def sampleTriage : TriageResult :=
  { language := "typescript", framework := "none", codeType := "module"
    dataFlowMap := { sources := [], sinks := [] }
    entryPoints := [], riskAreas := [] }

/-- A triage result reporting an injection risk area, so the injection
adapter does not short-circuit. -/
def riskTriage : TriageResult :=
  { language := "typescript", framework := "none", codeType := "module"
    dataFlowMap := { sources := ["req.query"], sinks := ["db.exec"] }
    entryPoints := ["handler"], riskAreas := [{ category := "injection" }] }

/-- A parsed model finding that carries its own id and a (mislabeled)
`auth` category. -/
def fjAuth : RawFindingJson :=
  { id := some "f1", category := some "auth", severity := "high"
    title := "T", description := "D" }

/-- A parsed model finding with id and category omitted. -/
def fjNoId : RawFindingJson :=
  { id := none, category := none, severity := "low", title := "U", description := "V" }

/-- A reachable finding with a one-node data-flow path and no
false-positive reason. -/
def fR : Finding :=
  { id := "f1", category := "injection", severity := "high"
    title := "SQL injection", description := "unsanitized concat"
    location := { startLine := 10, endLine := 12, snippet := "db.exec(q)" }
    cweId := some "CWE-89", owaspCategory := none
    isReachable := true
    reachabilityAnalysis :=
      { hasUserInputPath := true
        dataFlowPath := [{ name := "req.query", nodeType := "source", description := "user input" }]
        sanitizersInPath := []
        falsePositiveReason := none } }

/-- An unreachable finding with an empty path and a recorded reason. -/
def fU : Finding :=
  { id := "f2", category := "secrets", severity := "low"
    title := "hardcoded key", description := "constant string"
    location := { startLine := 3, endLine := 3, snippet := "const k" }
    cweId := none, owaspCategory := none
    isReachable := false
    reachabilityAnalysis :=
      { hasUserInputPath := false
        dataFlowPath := []
        sanitizersInPath := []
        falsePositiveReason := some "test fixture, not shipped" } }

/-- A freshly created review row. -/
def sampleReview : ReviewRow :=
  { id := "rev-1", user_id := "u1", code := "const x = 1", language := "typescript"
    status := "pending", created_at := 0, updated_at := 0
    workflow_instance_id := some "wf-1"
    total_findings_raw := 0, total_findings_filtered := 0
    noise_reduction_percent := 0, current_stage := none, error := none }

/-- Storage holding exactly the review `rev-1` and nothing else. -/
def sampleState : AgentState :=
  { reviews := fun k => if k = "rev-1" then some sampleReview else none
    findings := fun _ => none
    remediations := fun _ => none }

/-- A pipeline environment whose steps all settle successfully and whose
approval window expires with no event. -/
def baseEnv : PipelineEnv :=
  { triageR := .ok sampleTriage
    dependencyR := .ok []
    authR := .ok []
    injectionR := .ok []
    secretsR := .ok []
    reachabilityR := fun _ _ => .ok [fR, fU]
    synthesisR := fun n fs => .ok (runSynthesisStage n fs)
    approvalEv := none
    remediationR := fun fs => .ok (runRemediationStage "const x = 1" fs "rev-1" 5)
    now := 5 }

/-- The last row of `rows` whose primary key is `k`, if any (the row that
survives a sequence of `INSERT OR REPLACE`). -/
def findLastRow (rows : List FindingRow) (k : String) : Option FindingRow :=
  match rows with
  | [] => none
  | r :: t =>
    match findLastRow t k with
    | some v => some v
    | none => if r.id = k then some r else none

theorem storeRows_apply (rows : List FindingRow) (m : Table FindingRow) (k : String) :
    storeRows rows m k =
      match findLastRow rows k with
      | some v => some v
      | none => m k := by
  induction rows generalizing m with
  | nil => rfl
  | cons r t ih =>
    show storeRows t (upsertT r.id r m) k = _
    rw [ih]
    cases hf : findLastRow t k with
    | some v => simp [findLastRow, hf]
    | none =>
      simp only [findLastRow, hf]
      by_cases hk : r.id = k
      · subst hk
        simp [upsertT]
      · have hk' : ¬ k = r.id := fun h => hk h.symm
        simp [upsertT, hk, hk']

theorem storeRows_idem (rows : List FindingRow) (m : Table FindingRow) :
    storeRows rows (storeRows rows m) = storeRows rows m := by
  funext k
  rw [storeRows_apply, storeRows_apply]
  cases hf : findLastRow rows k with
  | some v => simp
  | none => simp [storeRows_apply, hf]

/-- C3: `store-findings` is idempotent. Invoking `/store-findings` twice
with identical arguments leaves the `findings` table (hence its row count
and every field value) and the `remediations` table identical to one
invocation, and the `reviews` rows identical except for the `updated_at`
wall-clock column (which the claim's enumeration — row count, field
values, Review statistics — does not cover). -/
theorem store_findings_idempotent (now1 now2 : Int) (reviewId : String)
    (findings : List Finding) (synthesis : SynthesisResult) (s : AgentState) :
    (storeFindingsOp now2 reviewId findings synthesis
        (storeFindingsOp now1 reviewId findings synthesis s)).findings
      = (storeFindingsOp now1 reviewId findings synthesis s).findings
    ∧ (storeFindingsOp now2 reviewId findings synthesis
        (storeFindingsOp now1 reviewId findings synthesis s)).remediations
      = (storeFindingsOp now1 reviewId findings synthesis s).remediations
    ∧ ∀ k, ((storeFindingsOp now2 reviewId findings synthesis
              (storeFindingsOp now1 reviewId findings synthesis s)).reviews k).map
            (fun r => { r with updated_at := 0 })
         = ((storeFindingsOp now1 reviewId findings synthesis s).reviews k).map
            (fun r => { r with updated_at := 0 }) := by
  refine ⟨?_, rfl, ?_⟩
  · simp only [storeFindingsOp]
    exact storeRows_idem _ _
  · intro k
    simp only [storeFindingsOp]
    by_cases hk : k = reviewId
    · subst hk
      cases s.reviews k <;> simp
    · simp [hk]

/-- C1: `/store-findings` overwrites the review's statistics from its
arguments — raw count from `synthesis.totalRaw`, filtered count
recomputed as the number of findings with `isReachable`, noise-reduction
from `synthesis.noiseReductionPercent` — never incrementally from the old
row; and with the synthesis produced by the (spec-modelled) synthesis
stage over the same findings, the persisted noise-reduction percentage
equals `(raw − filtered) / raw × 100` when raw > 0 and `0` when
raw = 0. -/
theorem store_findings_overwrites_stats (now : Int) (reviewId : String)
    (filtered : List Finding) (raw : Nat) (s : AgentState) (r : ReviewRow)
    (h : s.reviews reviewId = some r) :
    ∃ r',
      (storeFindingsOp now reviewId filtered (runSynthesisStage raw filtered) s).reviews
          reviewId = some r'
      ∧ r' = { r with
                total_findings_raw := raw
                total_findings_filtered :=
                  (filtered.filter (fun f => f.isReachable)).length
                noise_reduction_percent :=
                  (runSynthesisStage raw filtered).noiseReductionPercent
                updated_at := now }
      ∧ (r'.total_findings_raw = 0 → r'.noise_reduction_percent = 0)
      ∧ (0 < r'.total_findings_raw →
          r'.noise_reduction_percent =
            ((r'.total_findings_raw : Rat) - (r'.total_findings_filtered : Rat))
              / (r'.total_findings_raw : Rat) * 100) := by
  refine ⟨_, ?_, rfl, ?_, ?_⟩
  · simp [storeFindingsOp, h, runSynthesisStage]
  · intro h0
    simp only [runSynthesisStage] at h0 ⊢
    simp [h0]
  · intro h0
    simp only [runSynthesisStage] at h0 ⊢
    have hraw : ¬ raw = 0 := by omega
    simp [hraw]

theorem store_findings_overwrites_stats_witness :
    ∃ r',
      (storeFindingsOp 7 "rev-1" [fR, fU] (runSynthesisStage 3 [fR, fU]) sampleState).reviews
          "rev-1" = some r'
      ∧ r' = { sampleReview with
                total_findings_raw := 3
                total_findings_filtered :=
                  (([fR, fU] : List Finding).filter (fun f => f.isReachable)).length
                noise_reduction_percent :=
                  (runSynthesisStage 3 [fR, fU]).noiseReductionPercent
                updated_at := 7 }
      ∧ (r'.total_findings_raw = 0 → r'.noise_reduction_percent = 0)
      ∧ (0 < r'.total_findings_raw →
          r'.noise_reduction_percent =
            ((r'.total_findings_raw : Rat) - (r'.total_findings_filtered : Rat))
              / (r'.total_findings_raw : Rat) * 100) :=
  store_findings_overwrites_stats 7 "rev-1" [fR, fU] 3 sampleState sampleReview (by decide)

theorem jsOrNone_nonEmpty (o : Option String) :
    nonEmptyOptStr (jsOrNone o) ↔ nonEmptyOptStr o := by
  cases o with
  | none => simp [jsOrNone, nonEmptyOptStr]
  | some s =>
    by_cases h : s = "" <;> simp [jsOrNone, nonEmptyOptStr, h]

theorem roundtrip_isReachable (reviewId : String) (f : Finding) :
    (mapFindingFromDb (findingToRow reviewId f)).isReachable = f.isReachable := by
  cases hr : f.isReachable <;> simp [mapFindingFromDb, findingToRow, hr]

/-- C2: the Finding invariant — `isReachable == false` iff
`falsePositiveReason` is non-empty, `isReachable == true` iff
`dataFlowPath` is non-empty — survives persistence by the
`/store-findings` insert loop followed by `mapFindingFromDb`, and every
finding handed out by `get_findings` over a table of invariant-satisfying
rows satisfies it. (That the reachability filter's outputs satisfy the
invariant in the first place is the filter's spec-modelled structural
contract, §4.3, taken as the hypothesis `hf`; `stages/reachability.ts` is
not in the source snapshot.) -/
theorem finding_invariant_roundtrip (reviewId : String) (f : Finding)
    (rows : List FindingRow) (includeFiltered : Option Bool)
    (hf : findingInvariant f)
    (hrows : ∀ row ∈ rows, findingInvariant (mapFindingFromDb row)) :
    findingInvariant (mapFindingFromDb (findingToRow reviewId f))
    ∧ ∀ g ∈ get_findings rows reviewId includeFiltered, findingInvariant g := by
  constructor
  · have hfr : (mapFindingFromDb (findingToRow reviewId f)).reachabilityAnalysis.falsePositiveReason
        = jsOrNone (jsOrNone f.reachabilityAnalysis.falsePositiveReason) := rfl
    have hdf : (mapFindingFromDb (findingToRow reviewId f)).reachabilityAnalysis.dataFlowPath
        = f.reachabilityAnalysis.dataFlowPath := rfl
    unfold findingInvariant
    rw [roundtrip_isReachable, hfr, hdf, jsOrNone_nonEmpty, jsOrNone_nonEmpty]
    exact hf
  · intro g hg
    simp only [get_findings] at hg
    rcases List.mem_map.mp hg with ⟨row, hrow, rfl⟩
    have hrow' : row ∈ rows := List.mem_filter.mp (List.mem_mergeSort.mp hrow) |>.1
    exact hrows row hrow'

theorem finding_invariant_roundtrip_witness :
    findingInvariant (mapFindingFromDb (findingToRow "rev-1" fR))
    ∧ ∀ g ∈ get_findings [findingToRow "rev-1" fU] "rev-1" (some true),
        findingInvariant g :=
  finding_invariant_roundtrip "rev-1" fR [findingToRow "rev-1" fU] (some true)
    (by decide) (by decide)

/-- C9: findings returned by `get_findings` are ordered by severity rank —
critical first — under the rank table of its `ORDER BY CASE` clause
(critical 1, high 2, medium 3, low 4, anything else 5), while being
exactly the selected rows (a permutation, so ties are merely
unconstrained, never dropped). -/
theorem get_findings_sorted_by_severity (rows : List FindingRow) (reviewId : String)
    (includeFiltered : Option Bool) :
    List.Pairwise (fun a b => severityRank a.severity ≤ severityRank b.severity)
      (get_findings rows reviewId includeFiltered)
    ∧ List.Perm (get_findings rows reviewId includeFiltered)
        ((rows.filter (fun r =>
            r.review_id = reviewId
              && ((includeFiltered.getD false) || r.is_reachable = 1))).map
          mapFindingFromDb)
    ∧ severityRank "critical" = 1 ∧ severityRank "high" = 2
    ∧ severityRank "medium" = 3 ∧ severityRank "low" = 4
    ∧ ∀ sev, sev ∉ (["critical", "high", "medium", "low"] : List String) →
        severityRank sev = 5 := by
  refine ⟨?_, ?_, rfl, rfl, rfl, rfl, ?_⟩
  · simp only [get_findings]
    rw [List.pairwise_map]
    have hs := @List.sorted_mergeSort FindingRow
      (fun a b : FindingRow =>
        decide (severityRank a.severity ≤ severityRank b.severity))
      (fun a b c h1 h2 => by
        simp only [decide_eq_true_eq] at *
        omega)
      (fun a b => by
        simp only [Bool.or_eq_true, decide_eq_true_eq]
        exact Nat.le_total _ _)
      (rows.filter (fun r =>
        r.review_id = reviewId
          && ((includeFiltered.getD false) || r.is_reachable = 1)))
    exact hs.imp (fun h => by simpa using h)
  · simp only [get_findings]
    exact (List.mergeSort_perm _ _).map mapFindingFromDb
  · intro sev h
    simp only [List.mem_cons, List.not_mem_nil, or_false, not_or] at h
    obtain ⟨h1, h2, h3, h4⟩ := h
    simp [severityRank, h1, h2, h3, h4]

/-- C10: with `includeFiltered` omitted or `false`, `get_findings`
returns exactly the review's rows with `is_reachable = 1` (so every
returned finding has `isReachable = true` and every row persisted
unreachable is excluded), and with `includeFiltered = true` it returns
all of the review's rows. -/
theorem get_findings_reachable_only (rows : List FindingRow) (reviewId : String) :
    (∀ g ∈ get_findings rows reviewId none, g.isReachable = true)
    ∧ get_findings rows reviewId none = get_findings rows reviewId (some false)
    ∧ (∀ g, g ∈ get_findings rows reviewId none ↔
        ∃ row, row ∈ rows ∧ row.review_id = reviewId ∧ row.is_reachable = 1
          ∧ g = mapFindingFromDb row)
    ∧ (∀ g, g ∈ get_findings rows reviewId (some true) ↔
        ∃ row, row ∈ rows ∧ row.review_id = reviewId ∧ g = mapFindingFromDb row) := by
  have hmem : ∀ g, g ∈ get_findings rows reviewId none ↔
      ∃ row, row ∈ rows ∧ row.review_id = reviewId ∧ row.is_reachable = 1
        ∧ g = mapFindingFromDb row := by
    intro g
    simp only [get_findings, List.mem_map, List.mem_mergeSort, List.mem_filter,
      Option.getD_none, Bool.false_or, Bool.and_eq_true, decide_eq_true_eq]
    constructor
    · rintro ⟨row, ⟨hrow, h1, h2⟩, rfl⟩
      exact ⟨row, hrow, h1, h2, rfl⟩
    · rintro ⟨row, hrow, h1, h2, rfl⟩
      exact ⟨row, ⟨hrow, h1, h2⟩, rfl⟩
  refine ⟨?_, rfl, hmem, ?_⟩
  · intro g hg
    rcases (hmem g).mp hg with ⟨row, _, _, hreach, rfl⟩
    simp [mapFindingFromDb, hreach]
  · intro g
    simp only [get_findings, List.mem_map, List.mem_mergeSort, List.mem_filter,
      Option.getD_some, Bool.true_or, Bool.and_true, decide_eq_true_eq]
    constructor
    · rintro ⟨row, ⟨hrow, h1⟩, rfl⟩
      exact ⟨row, hrow, h1, rfl⟩
    · rintro ⟨row, hrow, h1, rfl⟩
      exact ⟨row, ⟨hrow, h1⟩, rfl⟩

/-- C6: the reachability filter and synthesis are sequenced strictly after
the `Promise.all` join of the four analysis steps, so whenever any one of
dependency/auth/injection/secrets settles as a stage-fatal failure
(retries exhausted), neither the filter nor synthesis is ever started and
the run terminates in failure; contrapositively, the filter only ever
starts once all four have produced a result. -/
theorem fanin_failure_blocks_filter (env : PipelineEnv) (reviewId : String)
    (s0 : AgentState)
    (h : (∃ e, env.dependencyR = Except.error e) ∨ (∃ e, env.authR = Except.error e)
       ∨ (∃ e, env.injectionR = Except.error e) ∨ (∃ e, env.secretsR = Except.error e)) :
    StageName.reachability ∉ (runPipeline env reviewId s0).invoked
    ∧ StageName.synthesis ∉ (runPipeline env reviewId s0).invoked
    ∧ ∃ e, (runPipeline env reviewId s0).outcome = .error e := by
  rcases htri : env.triageR with e | tri <;>
    rcases hdep : env.dependencyR with e1 | dep <;>
      rcases hauth : env.authR with e2 | auth <;>
        rcases hinj : env.injectionR with e3 | inj <;>
          rcases hsec : env.secretsR with e4 | sec <;>
            simp_all [runPipeline]

theorem fanin_failure_blocks_filter_witness :
    StageName.reachability ∉
      (runPipeline { baseEnv with dependencyR := .error "retries exhausted" }
        "rev-1" sampleState).invoked
    ∧ StageName.synthesis ∉
      (runPipeline { baseEnv with dependencyR := .error "retries exhausted" }
        "rev-1" sampleState).invoked
    ∧ ∃ e, (runPipeline { baseEnv with dependencyR := .error "retries exhausted" }
        "rev-1" sampleState).outcome = .error e :=
  fanin_failure_blocks_filter _ "rev-1" sampleState (Or.inl ⟨"retries exhausted", rfl⟩)

/-- C5: from the approval suspension point, an explicit rejection
(`approved: false`), an approval of an empty finding-id list, or expiry
of the 7-day window with no event (spec-modelled as a synthetic rejection
payload, see `approvalPayload`) leaves the review's status `completed`,
leaves the `remediations` table untouched, and never starts the
remediation step. -/
theorem rejection_or_timeout_completes (env : PipelineEnv) (reviewId : String)
    (s0 : AgentState) (r : ReviewRow) (tri : TriageResult)
    (dep auth inj sec : List RawFinding) (filtered : List Finding)
    (synth : SynthesisResult)
    (hrev : s0.reviews reviewId = some r)
    (htri : env.triageR = .ok tri)
    (hdep : env.dependencyR = .ok dep) (hauth : env.authR = .ok auth)
    (hinj : env.injectionR = .ok inj) (hsec : env.secretsR = .ok sec)
    (hreach : env.reachabilityR tri.dataFlowMap (dep ++ auth ++ inj ++ sec) = .ok filtered)
    (hsynth : env.synthesisR (dep ++ auth ++ inj ++ sec).length filtered = .ok synth)
    (hev : env.approvalEv = none
         ∨ ∃ p, env.approvalEv = some p ∧ (p.approved = false ∨ p.findingIds = [])) :
    (∃ r', (runPipeline env reviewId s0).state.reviews reviewId = some r'
        ∧ r'.status = "completed")
    ∧ (runPipeline env reviewId s0).state.remediations = s0.remediations
    ∧ StageName.remediation ∉ (runPipeline env reviewId s0).invoked
    ∧ (runPipeline env reviewId s0).outcome
        = .ok { status := "completed", remediations := [] } := by
  have hcond : (!(approvalPayload env.approvalEv).approved
      || (approvalPayload env.approvalEv).findingIds.length == 0) = true := by
    rcases hev with hnone | ⟨p, hp, hcase⟩
    · simp [hnone, approvalPayload]
    · rcases hcase with h1 | h2
      · simp [hp, approvalPayload, h1]
      · simp [hp, approvalPayload, h2]
  simp only [List.append_assoc, List.length_append] at hreach hsynth
  simp only [runPipeline, htri, hdep, hauth, hinj, hsec, hreach, hsynth,
    List.append_assoc, List.length_append, hcond]
  refine ⟨?_, rfl, by simp, rfl⟩
  simp [updateStatusOp, storeFindingsOp, hrev]

theorem rejection_or_timeout_completes_witness :
    (∃ r', (runPipeline baseEnv "rev-1" sampleState).state.reviews "rev-1" = some r'
        ∧ r'.status = "completed")
    ∧ (runPipeline baseEnv "rev-1" sampleState).state.remediations
        = sampleState.remediations
    ∧ StageName.remediation ∉ (runPipeline baseEnv "rev-1" sampleState).invoked
    ∧ (runPipeline baseEnv "rev-1" sampleState).outcome
        = .ok { status := "completed", remediations := [] } :=
  rejection_or_timeout_completes baseEnv "rev-1" sampleState sampleReview sampleTriage
    [] [] [] [] [fR, fU] (runSynthesisStage 0 [fR, fU])
    (by decide) rfl rfl rfl rfl rfl rfl rfl (Or.inl rfl)

/-- C4: on an approval event with `approved: true` and a non-empty
`findingIds`, the orchestrator passes to the remediation step exactly the
persisted findings that are both reachable and named
(`filteredFindings.filter(f => f.isReachable && findingIds.includes(f.id))`),
and — with the spec-modelled remediation stage — the run completes with
one Remediation per finding of that subset and none for any other
finding: the produced records' owning-finding ids are exactly the
subset's ids. -/
theorem approval_remediates_exact_subset (env : PipelineEnv) (reviewId code : String)
    (s0 : AgentState) (tri : TriageResult)
    (dep auth inj sec : List RawFinding) (filtered : List Finding)
    (synth : SynthesisResult) (ids : List String)
    (htri : env.triageR = .ok tri)
    (hdep : env.dependencyR = .ok dep) (hauth : env.authR = .ok auth)
    (hinj : env.injectionR = .ok inj) (hsec : env.secretsR = .ok sec)
    (hreach : env.reachabilityR tri.dataFlowMap (dep ++ auth ++ inj ++ sec) = .ok filtered)
    (hsynth : env.synthesisR (dep ++ auth ++ inj ++ sec).length filtered = .ok synth)
    (hev : env.approvalEv = some { approved := true, findingIds := ids })
    (hids : ids ≠ [])
    (hrem : env.remediationR
        = fun fs => .ok (runRemediationStage code fs reviewId env.now)) :
    (runPipeline env reviewId s0).outcome
      = .ok { status := "completed"
              remediations := runRemediationStage code
                (filtered.filter (fun f => f.isReachable && ids.contains f.id))
                reviewId env.now }
    ∧ (runRemediationStage code
        (filtered.filter (fun f => f.isReachable && ids.contains f.id))
        reviewId env.now).map (fun rem => rem.findingId)
      = (filtered.filter (fun f => f.isReachable && ids.contains f.id)).map
          (fun f => f.id)
    ∧ StageName.remediation ∈ (runPipeline env reviewId s0).invoked := by
  have hlen : (ids.length == 0) = false := by
    have hne : ids.length ≠ 0 := fun hh => hids (List.length_eq_zero.mp hh)
    simp [hne]
  simp only [List.append_assoc, List.length_append] at hreach hsynth
  simp only [runPipeline, htri, hdep, hauth, hinj, hsec, hreach, hsynth,
    List.append_assoc, List.length_append, hrem, hev, approvalPayload,
    Bool.not_true, Bool.false_or, hlen, Bool.false_eq_true, if_false]
  refine ⟨trivial, ?_, by simp⟩
  simp only [runRemediationStage, List.map_map]
  rfl

theorem approval_remediates_exact_subset_witness :
    (runPipeline
        { baseEnv with approvalEv := some { approved := true, findingIds := ["f1"] } }
        "rev-1" sampleState).outcome
      = .ok { status := "completed"
              remediations := runRemediationStage "const x = 1"
                (([fR, fU] : List Finding).filter
                  (fun f => f.isReachable && (["f1"] : List String).contains f.id))
                "rev-1" 5 }
    ∧ (runRemediationStage "const x = 1"
        (([fR, fU] : List Finding).filter
          (fun f => f.isReachable && (["f1"] : List String).contains f.id))
        "rev-1" 5).map (fun rem => rem.findingId)
      = (([fR, fU] : List Finding).filter
          (fun f => f.isReachable && (["f1"] : List String).contains f.id)).map
          (fun f => f.id)
    ∧ StageName.remediation ∈
        (runPipeline
          { baseEnv with approvalEv := some { approved := true, findingIds := ["f1"] } }
          "rev-1" sampleState).invoked :=
  approval_remediates_exact_subset
    { baseEnv with approvalEv := some { approved := true, findingIds := ["f1"] } }
    "rev-1" "const x = 1" sampleState sampleTriage [] [] [] [] [fR, fU]
    (runSynthesisStage 0 [fR, fU]) ["f1"]
    rfl rfl rfl rfl rfl rfl rfl rfl (by simp) rfl

/-- C7 counterexample: the dependency adapter does NOT return an empty
finding list on a parse failure — `stages/dependency.ts` has no try/catch,
so the error propagates out of the stage, refuting the claim for the
dependency task at this concrete input. -/
theorem parse_failure_dependency_counterexample :
    runDependencyStage sampleTriage
        (.failure "Failed to parse AI response as JSON") "k2x" "a1b2c3"
      = .error "Failed to parse AI response as JSON"
    ∧ (Except.error "Failed to parse AI response as JSON"
        ≠ (.ok ([] : List RawFinding) : Except String (List RawFinding))) := by
  exact ⟨rfl, by simp⟩

/-- C7 amended: for the injection and secrets adapters (and the
spec-modelled auth adapter), an inference response that is unparsable as
JSON or is not an array yields `.ok []` — the parse failure is absorbed,
not propagated; the dependency adapter instead propagates the parse
failure, and throws on non-array content, so its own stage fails. -/
theorem parse_failure_soft_except_dependency (tri : TriageResult) (m ts rand : String) :
    runInjectionStage tri (.failure m) ts rand = .ok []
    ∧ runInjectionStage tri (.value .nonArray) ts rand = .ok []
    ∧ runSecretsStage (.failure m) ts rand = .ok []
    ∧ runSecretsStage (.value .nonArray) ts rand = .ok []
    ∧ runAuthStage (.failure m) ts rand = .ok []
    ∧ runAuthStage (.value .nonArray) ts rand = .ok []
    ∧ runDependencyStage tri (.failure m) ts rand = .error m
    ∧ runDependencyStage tri (.value .nonArray) ts rand
        = .error "TypeError: findings.map is not a function" := by
  refine ⟨?_, ?_, rfl, rfl, rfl, rfl, rfl, rfl⟩ <;>
    · unfold runInjectionStage
      split <;> rfl

theorem digitVal_digitChar : ∀ d, d < 10 → digitVal (Nat.digitChar d) = d := by decide

theorem valOfDigits_append (l : List Char) (c : Char) :
    valOfDigits (l ++ [c]) = 10 * valOfDigits l + digitVal c := by
  unfold valOfDigits
  rw [List.foldl_append]
  rfl

theorem valOfDigits_reprList (n : Nat) : valOfDigits (reprList n) = n := by
  induction n using Nat.strong_induction_on with
  | _ n ih =>
    rw [reprList]
    by_cases h : n < 10
    · rw [dif_pos h]
      show 10 * 0 + digitVal (Nat.digitChar n) = n
      rw [digitVal_digitChar n h]
      omega
    · rw [dif_neg h]
      rw [valOfDigits_append]
      have hdiv : n / 10 < n := Nat.div_lt_self (by omega) (by omega)
      rw [ih (n / 10) hdiv, digitVal_digitChar (n % 10) (Nat.mod_lt n (by omega))]
      omega

theorem reprList_injective (m n : Nat) (h : reprList m = reprList n) : m = n := by
  have hm := valOfDigits_reprList m
  rw [h, valOfDigits_reprList] at hm
  omega

theorem toDigitsCore_eq (fuel : Nat) : ∀ (n : Nat) (ds : List Char), n < fuel →
    Nat.toDigitsCore 10 fuel n ds = reprList n ++ ds := by
  induction fuel with
  | zero => intro n ds h; omega
  | succ fuel ih =>
    intro n ds h
    show (if n / 10 = 0 then Nat.digitChar (n % 10) :: ds
          else Nat.toDigitsCore 10 fuel (n / 10) (Nat.digitChar (n % 10) :: ds))
        = reprList n ++ ds
    by_cases h0 : n / 10 = 0
    · have hn : n < 10 := by
        by_contra hc
        have h10 : 10 ≤ n := by omega
        have h1 : 1 ≤ n / 10 := (Nat.one_le_div_iff (by omega)).mpr h10
        omega
      rw [if_pos h0, reprList, dif_pos hn, Nat.mod_eq_of_lt hn]
      rfl
    · have hn : ¬ n < 10 := by
        intro hc
        exact h0 (Nat.div_eq_of_lt hc)
      have hdiv : n / 10 < n := Nat.div_lt_self (by omega) (by omega)
      rw [if_neg h0, ih (n / 10) (Nat.digitChar (n % 10) :: ds) (by omega)]
      conv_rhs => rw [reprList]
      rw [dif_neg hn, List.append_assoc]
      rfl

theorem repr_eq_reprList (n : Nat) : Nat.repr n = (reprList n).asString := by
  show (Nat.toDigitsCore 10 (n + 1) n []).asString = (reprList n).asString
  rw [toDigitsCore_eq (n + 1) n [] (Nat.lt_succ_self n), List.append_nil]

theorem data_asString (l : List Char) : (l.asString).data = l := rfl

theorem repr_injective (m n : Nat) (h : Nat.repr m = Nat.repr n) : m = n := by
  rw [repr_eq_reprList, repr_eq_reprList] at h
  exact reprList_injective m n (congrArg String.data h)

theorem generateId_pfx_ne_empty (idTag : String) (k : Nat) :
    ¬ (idTag ++ "-" ++ Nat.repr k) = "" := by
  intro hk
  have hd : (idTag ++ "-" ++ Nat.repr k).data = ([] : List Char) := by
    rw [hk]
  simp only [String.data_append] at hd
  rcases List.append_eq_nil.mp hd with ⟨hd1, _⟩
  rcases List.append_eq_nil.mp hd1 with ⟨_, hd2⟩
  exact List.cons_ne_nil _ _ hd2

theorem generateId_indexed_ne (idTag ts rand : String) (i j : Nat) (hij : i ≠ j) :
    generateId (idTag ++ "-" ++ Nat.repr i) ts rand
      ≠ generateId (idTag ++ "-" ++ Nat.repr j) ts rand := by
  intro h
  apply hij
  unfold generateId at h
  rw [if_neg (generateId_pfx_ne_empty idTag i),
    if_neg (generateId_pfx_ne_empty idTag j)] at h
  have hd := congrArg String.data h
  simp only [String.data_append, List.append_assoc] at hd
  have hd2 := List.append_cancel_left hd
  have hd3 := List.append_cancel_left hd2
  have hd4 : (Nat.repr i).data = (Nat.repr j).data :=
    List.append_inj_left' hd3 rfl
  apply repr_injective
  rw [repr_eq_reprList, repr_eq_reprList] at hd4 ⊢
  exact congrArg List.asString hd4

theorem jsOrStr_falsy (o : Option String) (d : String) (h : strFalsy o) :
    jsOrStr o d = d := by
  rcases h with h | h <;> subst h <;> rfl

theorem stageFix_getElem (idTag cat : String) (fc : Bool) (ts rand : String)
    (xs : List RawFindingJson) (i : Nat) (hi : i < xs.length) :
    (stageFix idTag cat fc ts rand xs)[i]? = some {
      id := jsOrStr xs[i].id (generateId (idTag ++ "-" ++ Nat.repr i) ts rand)
      category := if fc then cat else jsOrStr xs[i].category cat
      severity := xs[i].severity
      title := xs[i].title
      description := xs[i].description } := by
  simp [stageFix, List.getElem?_enum, List.getElem?_eq_getElem hi]

/-- C8 counterexample: the injection adapter does NOT force-set the task
category — `stages/injection.ts` uses `finding.category || "injection"`,
so a response finding mislabeled `auth` keeps `auth`, refuting the claim
at this concrete input. -/
theorem injection_category_preserved_counterexample :
    runInjectionStage riskTriage (.value (.arr [fjAuth])) "k2x" "a1b2c3"
      = .ok [{ id := "f1", category := "auth", severity := "high"
               title := "T", description := "D" }]
    ∧ ("auth" : String) ≠ "injection" := by
  refine ⟨rfl, by simp⟩

/-- C8 amended: every adapter assigns `finding.id || generateId(tag-index)`
— a task-scoped id that is unique across the findings of one invocation
whose response omitted an id; the dependency, secrets and (spec-modelled)
auth adapters force-set their task's category, while the injection
adapter only defaults the category (`finding.category || "injection"`),
keeping a non-empty response category. -/
theorem stage_id_defaulting_amended (tri : TriageResult) (xs : List RawFindingJson)
    (ts rand : String) (i j : Nat) (hi : i < xs.length) (hj : j < xs.length)
    (hskip : injectionSkips tri = false) :
    runDependencyStage tri (.value (.arr xs)) ts rand
      = .ok (stageFix "dep" "dependency" true ts rand xs)
    ∧ runAuthStage (.value (.arr xs)) ts rand
      = .ok (stageFix "auth" "auth" true ts rand xs)
    ∧ runInjectionStage tri (.value (.arr xs)) ts rand
      = .ok (stageFix "inj" "injection" false ts rand xs)
    ∧ runSecretsStage (.value (.arr xs)) ts rand
      = .ok (stageFix "sec" "secrets" true ts rand xs)
    ∧ (∀ idTag cat fc,
        (stageFix idTag cat fc ts rand xs)[i]? = some {
          id := jsOrStr xs[i].id (generateId (idTag ++ "-" ++ Nat.repr i) ts rand)
          category := if fc then cat else jsOrStr xs[i].category cat
          severity := xs[i].severity
          title := xs[i].title
          description := xs[i].description })
    ∧ (∀ idTag cat fc a b, i ≠ j → strFalsy xs[i].id → strFalsy xs[j].id →
        (stageFix idTag cat fc ts rand xs)[i]? = some a →
        (stageFix idTag cat fc ts rand xs)[j]? = some b →
        a.id ≠ b.id) := by
  refine ⟨rfl, rfl, ?_, rfl, ?_, ?_⟩
  · simp [runInjectionStage, hskip]
  · intro idTag cat fc
    exact stageFix_getElem idTag cat fc ts rand xs i hi
  · intro idTag cat fc a b hij hfi hfj ha hb
    rw [stageFix_getElem idTag cat fc ts rand xs i hi] at ha
    rw [stageFix_getElem idTag cat fc ts rand xs j hj] at hb
    have ha2 := Option.some.inj ha
    have hb2 := Option.some.inj hb
    have hai : a.id = generateId (idTag ++ "-" ++ Nat.repr i) ts rand := by
      rw [← ha2]
      exact (jsOrStr_falsy _ _ hfi).symm ▸ rfl
    have hbj : b.id = generateId (idTag ++ "-" ++ Nat.repr j) ts rand := by
      rw [← hb2]
      exact (jsOrStr_falsy _ _ hfj).symm ▸ rfl
    rw [hai, hbj]
    exact generateId_indexed_ne idTag ts rand i j hij

theorem stage_id_defaulting_amended_witness :
    runDependencyStage riskTriage (.value (.arr [fjNoId, fjNoId])) "k2x" "a1b2c3"
      = .ok (stageFix "dep" "dependency" true "k2x" "a1b2c3" [fjNoId, fjNoId])
    ∧ runAuthStage (.value (.arr [fjNoId, fjNoId])) "k2x" "a1b2c3"
      = .ok (stageFix "auth" "auth" true "k2x" "a1b2c3" [fjNoId, fjNoId])
    ∧ runInjectionStage riskTriage (.value (.arr [fjNoId, fjNoId])) "k2x" "a1b2c3"
      = .ok (stageFix "inj" "injection" false "k2x" "a1b2c3" [fjNoId, fjNoId])
    ∧ runSecretsStage (.value (.arr [fjNoId, fjNoId])) "k2x" "a1b2c3"
      = .ok (stageFix "sec" "secrets" true "k2x" "a1b2c3" [fjNoId, fjNoId])
    ∧ (∀ idTag cat fc,
        (stageFix idTag cat fc "k2x" "a1b2c3" [fjNoId, fjNoId])[0]? = some {
          id := jsOrStr (([fjNoId, fjNoId] : List RawFindingJson)[0]).id
                  (generateId (idTag ++ "-" ++ Nat.repr 0) "k2x" "a1b2c3")
          category := if fc then cat
                      else jsOrStr (([fjNoId, fjNoId] : List RawFindingJson)[0]).category cat
          severity := (([fjNoId, fjNoId] : List RawFindingJson)[0]).severity
          title := (([fjNoId, fjNoId] : List RawFindingJson)[0]).title
          description := (([fjNoId, fjNoId] : List RawFindingJson)[0]).description })
    ∧ (∀ idTag cat fc a b, (0 : Nat) ≠ 1 →
        strFalsy (([fjNoId, fjNoId] : List RawFindingJson)[0]).id →
        strFalsy (([fjNoId, fjNoId] : List RawFindingJson)[1]).id →
        (stageFix idTag cat fc "k2x" "a1b2c3" [fjNoId, fjNoId])[0]? = some a →
        (stageFix idTag cat fc "k2x" "a1b2c3" [fjNoId, fjNoId])[1]? = some b →
        a.id ≠ b.id) :=
  stage_id_defaulting_amended riskTriage [fjNoId, fjNoId] "k2x" "a1b2c3" 0 1
    (by decide) (by decide) (by decide)
